import Mathlib

/-!
Verification of the resumable-experiment runner (`expsuite.py`).

The development shallowly embeds the parts of the source the claims are
about:

* the per-repetition log file is a `List String`, one entry per line
  (entries carry no trailing newline; the sentinel the writer emits is the
  bare token, which is also how it reads back, being the last line);
* `run_rep` (source lines 641-758) becomes a pure function from the
  pre-existing log content, the `restore_supported` flag, the `--rerun`
  option and the two user hooks to a record of its observable effects:
  the final log content, the backup copy it took (if any), the mode the
  log was opened in, the `restore_state` call (if any), the sequence of
  `iterate` invocations and the crash reports written;
* the step hook `iterate` is a function `Nat → Except String String`
  returning either the rendered result line for that iteration or the
  formatted exception text; `save_state` similarly may fail;
* `expand_param_list` / `do_experiment` (source lines 500-638) operate on
  parameter sets embedded as association lists of `String × PValue`,
  numeric values as rationals (documented at `formatFixed6`);
* Python truthiness of the `--rerun` option (`None` and `0` both falsy)
  is `rerunTruthy`.

The model fixes the `iterations` key as always present (`I : Nat`), as
`do_experiment` guarantees for every set it runs.
-/

/-- The token the runner writes to mark an aborted repetition
(source line 730). -/
def sentinelToken : String := "exception:error"

/-- `listStartsWith p l` : the character list `l` begins with `p`. -/
def listStartsWith : List Char → List Char → Bool
  | [], _ => true
  | _ :: _, [] => false
  | a :: as, b :: bs => a == b && listStartsWith as bs

/-- Substring containment on character lists, the semantics of Python's
`in` operator on `str`. -/
def listContainsSub (p : List Char) : List Char → Bool
  | [] => p.isEmpty
  | c :: t => listStartsWith p (c :: t) || listContainsSub p t

/-- How the readers recognise the sentinel: `"exception:error" in line`
(source lines 419 and 662) — substring containment, not equality. -/
def lineHasSentinel (l : String) : Bool :=
  listContainsSub sentinelToken.data l.data

/-- Source lines 660-665: drop the final line when the sentinel check
fires on it (`IndexError` on an empty file is swallowed). -/
def stripSentinel (lines : List String) : List String :=
  match lines.getLast? with
  | none => lines
  | some l => if lineHasSentinel l then lines.dropLast else lines

/-- `PyExperimentSuite.haserror` (source lines 409-426): the log exists
and its last line passes the sentinel check. -/
def haserror : Option (List String) → Bool
  | none => false
  | some lines =>
    match lines.getLast? with
    | none => false
    | some l => lineHasSentinel l

/-- Python truthiness of the `--rerun` option: `None` and `0` are falsy
(source: `not self.options.rerun`, `self.options.rerun and ...`). -/
def rerunTruthy : Option Nat → Bool
  | none => false
  | some t => t != 0

/-- Result of `run_rep`'s resume computation (source lines 647-699 plus
the open at 703-708): the log content kept in the file when the loop
starts, the backup copy taken, and the resume index `restore`. -/
structure Resumption where
  base : List String
  backup : Option (List String)
  restore : Nat
deriving DecidableEq, Repr

/-- The resume computation of `run_rep`, faithful to the branch order of
source lines 652-699 together with the file-open of lines 703-708:
`none` means `run_rep` returned `False` without touching anything.
When `restore = 0` the log is (re)opened in write mode, so `base = []`;
when `restore ≠ 0` it is opened in append mode on its current content
(note: in the auto-resume branch the file itself still holds the
sentinel line the in-memory list dropped). -/
def computeResume (rs : Bool) (rerun : Option Nat) (I : Nat) :
    Option (List String) → Option Resumption
  | none => some ⟨[], none, 0⟩
  | some lines =>
    let ls := stripSentinel lines
    if ls.length = I ∧ rerunTruthy rerun = false then
      none
    else if rs = false then
      some ⟨[], none, 0⟩
    else
      match rerun with
      | some t =>
        if t ≠ 0 then
          if ls.length < t then none
          else some ⟨ls.take t, some lines, t⟩
        else if ls.length = 0 then some ⟨[], none, 0⟩
        else some ⟨lines, none, ls.length⟩
      | none =>
        if ls.length = 0 then some ⟨[], none, 0⟩
        else some ⟨lines, none, ls.length⟩

/-- Observable effects of the iteration loop (source lines 711-757):
lines written to the log, `iterate` invocations, and crash-report
contents (`_print_exception`, lines 761-770). -/
structure IterResult where
  written : List String
  itCalls : List Nat
  reports : List String
deriving DecidableEq, Repr

/-- The iteration loop `for it in xrange(restore, iterations)`:
`runIters rs hook save s c` runs indices `s, s+1, ..., s+c-1`.  A hook
exception writes a crash report and the sentinel and breaks; a
`save_state` failure (only attempted when `rs`) writes a crash report
and continues; a successful iteration appends its rendered line. -/
def runIters (rs : Bool) (hook : Nat → Except String String)
    (save : Nat → Except String Unit) : Nat → Nat → IterResult
  | _, 0 => ⟨[], [], []⟩
  | s, c + 1 =>
    match hook s with
    | .error e => ⟨[sentinelToken], [s], [e]⟩
    | .ok line =>
      let saveReports := if rs then
          (match save s with | .error e => [e] | .ok _ => []) else []
      let r := runIters rs hook save (s + 1) c
      ⟨line :: r.written, s :: r.itCalls, saveReports ++ r.reports⟩

/-- Everything `run_rep` does that the outside can see.  `ranLoop` is
false exactly when `run_rep` returned `False` early; `log` is the final
content of the repetition's log file (`none` only if it never existed);
`openMode` is `none` (never opened for writing), `some false` (opened
`'w'`) or `some true` (opened `'a'`); `restoreCall` is the argument of
the `restore_state` invocation, if one happened. -/
structure RunOutcome where
  ranLoop : Bool
  log : Option (List String)
  backup : Option (List String)
  openMode : Option Bool
  restoreCall : Option Nat
  itCalls : List Nat
  reports : List String
deriving DecidableEq, Repr

/-- `PyExperimentSuite.run_rep` (source lines 641-758) as a function of
the `restore_supported` class flag, the `--rerun` option, `iterations`,
the two hooks and the pre-existing log content. -/
def run_rep (rs : Bool) (rerun : Option Nat) (I : Nat)
    (hook : Nat → Except String String) (save : Nat → Except String Unit)
    (log : Option (List String)) : RunOutcome :=
  match computeResume rs rerun I log with
  | none => ⟨false, log, none, none, none, [], []⟩
  | some r =>
    let ir := runIters rs hook save r.restore (I - r.restore)
    ⟨true, some (r.base ++ ir.written), r.backup,
      some (r.restore != 0),
      (if r.restore = 0 then none else some r.restore),
      ir.itCalls, ir.reports⟩

/-- The dispatcher's work list for one parameter set with `R`
repetitions (source lines 626-636): each repetition is run independently
on its own hook and its own log file. -/
def runBatch (rs : Bool) (rerun : Option Nat) (I : Nat)
    (hooks : Nat → Nat → Except String String)
    (save : Nat → Except String Unit)
    (logs : Nat → Option (List String)) (R : Nat) : List RunOutcome :=
  (List.range R).map (fun rep => run_rep rs rerun I (hooks rep) save (logs rep))

/-! Concrete hooks used by witnesses and counterexamples. -/

/-- A deterministic, never-failing step hook. -/
def natHook (n : Nat) : Except String String := .ok (Nat.repr n)

/-- A never-failing `save_state` hook. -/
def okSave (_ : Nat) : Except String Unit := .ok ()

/-- A step hook that raises at iteration 1. -/
def crashHook1 (n : Nat) : Except String String :=
  if n = 1 then .error "boom-trace" else .ok (Nat.repr n)

/-- A step hook with constant output that raises at iteration 1. -/
def wHook (n : Nat) : Except String String :=
  if n = 1 then .error "boom" else .ok "x"

/-! The parameter-expansion model (`expand_param_list`, `do_experiment`,
source lines 500-638 and 51-56). -/

/-- A parameter value: string, numeric scalar, or sequence.  Python
floats are modelled as rationals; see `formatFixed6` for how this meets
`'%f'` formatting. -/
inductive PValue where
  | str : String → PValue
  | num : Rat → PValue
  | seq : List PValue → PValue
deriving Repr

/-- A parameter set: an association list standing for the Python dict,
with the list order standing for the (implementation-chosen) dict
iteration order. -/
abbrev ParamSet := List (String × PValue)

def lookupKey (ps : ParamSet) (k : String) : Option PValue :=
  (ps.find? (fun p => p.1 == k)).map (fun p => p.2)

def setKey (ps : ParamSet) (k : String) (v : PValue) : ParamSet :=
  ps.map (fun p => if p.1 == k then (p.1, v) else p)

/-- `hasattr(v, '__iter__') and not isinstance(v, dict)`: in Python 2
only the sequence values qualify (strings have no `__iter__`). -/
def hasIter : PValue → Bool
  | .seq _ => true
  | _ => false

/-- The swept fields of a set, in iteration order (source line 515). -/
def iterFields (ps : ParamSet) : ParamSet := ps.filter (fun p => hasIter p.2)

def seqElems : PValue → List PValue
  | .seq l => l
  | _ => []

def getStr : Option PValue → Option String
  | some (.str s) => some s
  | _ => none

def getNum : Option PValue → Option Rat
  | some (.num q) => some q
  | _ => none

def padZeros (k : Nat) (s : String) : String :=
  String.mk (List.replicate (k - s.length) '0') ++ s

/-- Python's `'%f' % x` (six fixed decimals), modelled on rationals with
half-up rounding at the seventh decimal: for `|q| = p/d` the rounded
scaled value is `⌊(2·p·10^6 + d) / (2·d)⌋`.  Python formats the
underlying binary double with half-even rounding; the two renderings
agree on every value the claims use (exact multiples of
`1/1000000`). -/
def formatFixed6 (q : Rat) : String :=
  let p : Nat := q.num.natAbs
  let d : Nat := q.den
  let n : Nat := (2 * p * 1000000 + d) / (2 * d)
  let body := Nat.repr (n / 1000000) ++ "." ++ padZeros 6 (Nat.repr (n % 1000000))
  if q.num < 0 then "-" ++ body else body

/-- `re.sub("0+$", '0', s)`: the maximal run of trailing zeros is
replaced by a single zero. -/
def collapseTrailingZeros (s : String) : String :=
  let r := s.data.reverse
  let k := (r.takeWhile (fun c => c == '0')).length
  if k = 0 then s else String.mk ((r.drop k).reverse ++ ['0'])

/-- `convert_param_to_dirname` (source lines 51-56): strings pass
through, anything else goes through `'%f'` plus the trailing-zero
collapse.  A sequence value would raise `TypeError` under `'%f'`,
modelled as `none`. -/
def convert_param_to_dirname : PValue → Option String
  | .str s => some s
  | .num q => some (collapseTrailingZeros (formatFixed6 q))
  | .seq _ => none

def singleQuote : String := String.mk [Char.ofNat 39]

/-- Python's `str` of one `(key, value)` tuple of two strings (assuming
neither holds an apostrophe; every character this inserts is removed
again by `dirnameSanitize`). -/
def reprPair (k v : String) : String :=
  "(" ++ singleQuote ++ k ++ singleQuote ++ ", " ++ singleQuote ++ v ++ singleQuote ++ ")"

/-- Python's `str(zip(iterparams, map(convert_param_to_dirname, il)))`
(source line 531). -/
def reprZip (ps : List (String × String)) : String :=
  "[" ++ String.intercalate ", " (ps.map (fun p => reprPair p.1 p.2)) ++ "]"

/-- The character class of `re.sub("[' \[\],()]", '', ...)` (source
line 532). -/
def stripCharSet : List Char := [Char.ofNat 39, ' ', '[', ']', ',', '(', ')']

def dirnameSanitize (s : String) : String :=
  String.mk (s.data.filter (fun c => !(stripCharSet.contains c)))

/-- `itertools.product` over a list of sequences, last field fastest. -/
def cartProd : List (List PValue) → List (List PValue)
  | [] => [[]]
  | l :: ls => l.flatMap (fun x => (cartProd ls).map (fun r => x :: r))

/-- `itertools.izip` over a list of sequences: position-wise tuples,
silently truncated to the shortest input. -/
def izipL : List (List PValue) → List (List PValue)
  | [] => []
  | [l] => l.map (fun x => [x])
  | l :: ls => List.zipWith (fun x r => x :: r) l (izipL ls)

def convertAll : List PValue → Option (List String)
  | [] => some []
  | x :: xs =>
    match convert_param_to_dirname x, convertAll xs with
    | some s, some rest => some (s :: rest)
    | _, _ => none

def applyCombo (ps : ParamSet) (keys : List String) (il : List PValue) : ParamSet :=
  (keys.zip il).foldl (fun acc kv => setKey acc kv.1 kv.2) ps

/-- One child parameter set for the combination `il` (source lines
529-535): the parent copy with the swept fields fixed and the name
extended by the sanitized rendering of the field-value pairs. -/
def buildChild (ps : ParamSet) (n : String) (keys : List String)
    (il : List PValue) : Option ParamSet :=
  match convertAll il with
  | none => none
  | some strs =>
    some (setKey (applyCombo ps keys il) "name"
      (.str (n ++ "/" ++ dirnameSanitize (reprZip (keys.zip strs)))))

def buildChildren (ps : ParamSet) (n : String) (keys : List String) :
    List (List PValue) → Option (List ParamSet)
  | [] => some []
  | il :: rest =>
    match buildChild ps n keys il, buildChildren ps n keys rest with
    | some c, some cs => some (c :: cs)
    | _, _ => none

def expandWith (ps : ParamSet) (pa n : String) (combos : List (List PValue)) :
    List String × Except String (List ParamSet) :=
  match buildChildren ps n ((iterFields ps).map (fun p => p.1)) combos with
  | some cs => ([pa ++ "/" ++ n], .ok cs)
  | none => ([pa ++ "/" ++ n], .error "TypeError")

/-- `expand_param_list` on a single set (source lines 511-537).  The
first component is the list of intermediate snapshot directories written
(`mkdir` + `write_config_file`, lines 518-519, which happen before the
mode is even examined); the second is the children, or the exception
(`SystemExit` for an unknown mode, `KeyError` when a swept set lacks
`path`/`name`, `TypeError` for an unconvertible swept element). -/
def isStrVal (v : Option PValue) (s : String) : Bool :=
  match v with
  | some (.str t) => t == s
  | _ => false

def expandSet (ps : ParamSet) : List String × Except String (List ParamSet) :=
  if isStrVal (lookupKey ps "experiment") "single" then ([], .ok [ps])
  else if (iterFields ps).isEmpty then ([], .ok [ps])
  else
    match getStr (lookupKey ps "path"), getStr (lookupKey ps "name") with
    | some pa, some n =>
      if isStrVal (lookupKey ps "experiment") "list" then
        expandWith ps pa n (izipL ((iterFields ps).map (fun p => seqElems p.2)))
      else if (lookupKey ps "experiment").isNone ||
          isStrVal (lookupKey ps "experiment") "grid" then
        expandWith ps pa n (cartProd ((iterFields ps).map (fun p => seqElems p.2)))
      else ([pa ++ "/" ++ n], .error "SystemExit: unexpected value for parameter experiment")
    | _, _ => ([], .error "KeyError")

/-- `expand_param_list` over a batch: sets expand independently in
order; an exception aborts the remainder but the snapshot side effects
already performed stay. -/
def expand_param_list : List ParamSet → List String × Except String (List ParamSet)
  | [] => ([], .ok [])
  | p :: rest =>
    match expandSet p with
    | (tr, .error e) => (tr, .error e)
    | (tr, .ok cs) =>
      match expand_param_list rest with
      | (tr2, .error e) => (tr ++ tr2, .error e)
      | (tr2, .ok cs2) => (tr ++ tr2, .ok (cs ++ cs2))

/-- The reserved-key check of `do_experiment` (source line 616). -/
def hasRequiredKeys (p : ParamSet) : Bool :=
  (lookupKey p "name").isSome && (lookupKey p "iterations").isSome &&
    (lookupKey p "repetitions").isSome && (lookupKey p "path").isSome

def dirName (p : ParamSet) : String :=
  ((getStr (lookupKey p "path")).getD "") ++ "/" ++ ((getStr (lookupKey p "name")).getD "")

/-- The validation loop of `do_experiment` (source lines 614-620):
create each set's directory and snapshot in order until a set without
the four reserved keys is hit, which aborts the submission. -/
def createDirs : List ParamSet → List String × Bool
  | [] => ([], true)
  | p :: ps =>
    if hasRequiredKeys p then
      (dirName p :: (createDirs ps).1, (createDirs ps).2)
    else ([], false)

def repCount (p : ParamSet) : Nat :=
  match lookupKey p "repetitions" with
  | some (.num q) => q.num.toNat
  | _ => 0

def nameOf (p : ParamSet) : String := (getStr (lookupKey p "name")).getD ""

/-- Observable effects of `do_experiment`: whether expansion raised,
the intermediate snapshots written during expansion, the directories
created by the validation loop, whether the submission was accepted,
and the (set, repetition) work items dispatched. -/
structure ExpOutcome where
  crashed : Bool
  intermediates : List String
  dirs : List String
  accepted : Bool
  work : List (String × Nat)
deriving DecidableEq, Repr

/-- `do_experiment` (source lines 606-638): expansion (with its
snapshot side effects), the reserved-key validation loop, then the
per-repetition work list. -/
def do_experiment (batch : List ParamSet) : ExpOutcome :=
  match expand_param_list batch with
  | (tr, .error _) => ⟨true, tr, [], false, []⟩
  | (tr, .ok pl) =>
    if (createDirs pl).2 then
      ⟨false, tr, (createDirs pl).1, true,
        pl.flatMap (fun p => (List.range (repCount p)).map (fun i => (nameOf p, i)))⟩
    else ⟨false, tr, (createDirs pl).1, false, []⟩

/-- A minimal valid parameter set. -/
def psValid : ParamSet :=
  [("name", .str "a"), ("path", .str "."), ("iterations", .num 1), ("repetitions", .num 1)]

/-- A parameter set lacking the reserved key `iterations`. -/
def psNoIter : ParamSet :=
  [("name", .str "b"), ("path", .str "."), ("repetitions", .num 1)]

/-- The spec's worked example set (§8.6). -/
def psC8 : ParamSet :=
  [("name", .str "exp"), ("path", .str "."), ("iterations", .num 3),
   ("repetitions", .num 1), ("alpha", .seq [.num (mkRat 1 10), .num (mkRat 1 5)])]

/-- A list-mode set with two swept numeric fields. -/
def psList (n pa : String) (u v : List Rat) : ParamSet :=
  [("name", .str n), ("path", .str pa), ("experiment", .str "list"),
   ("iterations", .num 3), ("repetitions", .num 1),
   ("a", .seq (u.map .num)), ("b", .seq (v.map .num))]

/-! Helper lemmas about the model. -/

theorem stripSentinel_eq_self {lines : List String}
    (h : ∀ l, lines.getLast? = some l → lineHasSentinel l = false) :
    stripSentinel lines = lines := by
  unfold stripSentinel
  cases hg : lines.getLast? with
  | none => rfl
  | some l => simp [h l hg]

theorem stripSentinel_concat_tok (ls : List String) :
    stripSentinel (ls ++ [sentinelToken]) = ls := by
  unfold stripSentinel
  rw [List.getLast?_concat]
  have : lineHasSentinel sentinelToken = true := by decide
  simp [this, List.dropLast_concat]

theorem runIters_ok {hook : Nat → Except String String}
    {save : Nat → Except String Unit} {f : Nat → String}
    (hh : ∀ n, hook n = .ok (f n)) (hs : ∀ n, save n = .ok ())
    (rs : Bool) : ∀ (c s : Nat),
    runIters rs hook save s c = ⟨(List.range' s c).map f, List.range' s c, []⟩ := by
  intro c
  induction c with
  | zero => intro s; simp [runIters]
  | succ c ih =>
    intro s
    rw [List.range'_succ]
    simp [runIters, hh s, hs s, ih (s + 1)]

theorem range'_glue (m : Nat) : ∀ (s n : Nat),
    List.range' s m ++ List.range' (s + m) n = List.range' s (m + n) := by
  induction m with
  | zero => intro s n; simp
  | succ m ih =>
    intro s n
    rw [List.range'_succ, Nat.succ_add, List.range'_succ, List.cons_append]
    have h1 : s + (m + 1) = s + 1 + m := by omega
    rw [h1, ih (s + 1)]

theorem runIters_crash {hook : Nat → Except String String}
    {save : Nat → Except String Unit} {f : Nat → String} {msg : String}
    (hs : ∀ n, save n = .ok ()) (rs : Bool) :
    ∀ (k c s : Nat), (∀ n, n < k → hook (s + n) = .ok (f (s + n))) →
    hook (s + k) = .error msg → k < c →
    runIters rs hook save s c =
      ⟨(List.range' s k).map f ++ [sentinelToken], List.range' s (k + 1), [msg]⟩ := by
  intro k
  induction k with
  | zero =>
    intro c s _ he hc
    match c, hc with
    | c + 1, _ =>
      simp only [Nat.add_zero] at he
      simp [runIters, he, List.range'_succ]
  | succ k ih =>
    intro c s hh he hc
    match c, hc with
    | c + 1, hc =>
      have h0 : hook s = .ok (f s) := by
        have := hh 0 (Nat.succ_pos k)
        simpa using this
      have hh' : ∀ n, n < k → hook (s + 1 + n) = .ok (f (s + 1 + n)) := by
        intro n hn
        have : s + 1 + n = s + (n + 1) := by omega
        rw [this]
        exact hh (n + 1) (by omega)
      have he' : hook (s + 1 + k) = .error msg := by
        have : s + 1 + k = s + (k + 1) := by omega
        rw [this]; exact he
      have hck : k < c := by omega
      have hw : List.map f (List.range' s (k + 1)) = f s :: List.map f (List.range' (s + 1) k) := by
        rw [List.range'_succ]; rfl
      have hi : List.range' s (k + 1 + 1) = s :: List.range' (s + 1) (k + 1) :=
        List.range'_succ s (k + 1) 1
      simp [runIters, h0, hs s, ih c (s + 1) hh' he' hck, hw, hi]

theorem createDirs_all {pl : List ParamSet} (h : (createDirs pl).2 = true) :
    ∀ p ∈ pl, hasRequiredKeys p = true := by
  induction pl with
  | nil => intro p hp; cases hp
  | cons q qs ih =>
    cases hq : hasRequiredKeys q with
    | false => rw [createDirs, hq] at h; simp at h
    | true =>
      intro p hp
      rcases List.mem_cons.mp hp with rfl | hmem
      · exact hq
      · refine ih ?_ p hmem
        rw [createDirs, hq] at h
        simpa using h

theorem buildChild_num_pair (ps : ParamSet) (n : String) (keys : List String)
    (x y : Rat) :
    buildChild ps n keys [.num x, .num y] =
      some (setKey (applyCombo ps keys [.num x, .num y]) "name"
        (.str (n ++ "/" ++ dirnameSanitize (reprZip (keys.zip
          [collapseTrailingZeros (formatFixed6 x),
           collapseTrailingZeros (formatFixed6 y)]))))) := rfl

theorem buildChildren_num2 (ps : ParamSet) (n : String) (keys : List String) :
    ∀ (u v : List Rat), ∃ cs, buildChildren ps n keys
      (izipL [u.map PValue.num, v.map PValue.num]) = some cs ∧
      cs.length = min u.length v.length := by
  intro u
  induction u with
  | nil =>
    intro v
    exact ⟨[], by simp [izipL, buildChildren], by simp⟩
  | cons x xs ih =>
    intro v
    cases v with
    | nil => exact ⟨[], by simp [izipL, buildChildren], by simp⟩
    | cons y ys =>
      obtain ⟨cs, hcs, hlen⟩ := ih ys
      have hizip : izipL [(x :: xs).map PValue.num, (y :: ys).map PValue.num] =
          [PValue.num x, PValue.num y] :: izipL [xs.map PValue.num, ys.map PValue.num] := by
        simp [izipL]
      refine ⟨setKey (applyCombo ps keys [.num x, .num y]) "name"
        (.str (n ++ "/" ++ dirnameSanitize (reprZip (keys.zip
          [collapseTrailingZeros (formatFixed6 x),
           collapseTrailingZeros (formatFixed6 y)])))) :: cs, ?_, ?_⟩
      · rw [hizip, buildChildren, buildChild_num_pair, hcs]
      · simp [hlen, Nat.succ_min_succ]

theorem expandSet_psList (n pa : String) (u v : List Rat) :
    expandSet (psList n pa u v) =
      expandWith (psList n pa u v) pa n (izipL [u.map PValue.num, v.map PValue.num]) := rfl

/-! Claim theorems. -/

/-- C2: a repetition whose log file exists with exactly `iterations`
lines, whose final line is not (classified as) the sentinel, and with no
forced-rerun option, is skipped outright: `run_rep` returns `False`
without opening the log for writing, without calling any hook, without a
backup and without a `restore_state` call; hence a batch of such
repetitions performs zero iterations and appends zero log lines. -/
theorem c2_complete_skip (rs : Bool) (I R : Nat)
    (hooks : Nat → Nat → Except String String) (save : Nat → Except String Unit)
    (logs : Nat → List String)
    (hall : ∀ i, i < R → (logs i).length = I ∧
      ∀ l, (logs i).getLast? = some l → lineHasSentinel l = false) :
    ∀ i, i < R →
      (runBatch rs none I hooks save (fun r => some (logs r)) R)[i]? =
        some ⟨false, some (logs i), none, none, none, [], []⟩ := by
  intro i hi
  have hstrip : stripSentinel (logs i) = logs i := stripSentinel_eq_self (hall i hi).2
  have hcr : computeResume rs none I (some (logs i)) = none := by
    simp [computeResume, hstrip, (hall i hi).1, rerunTruthy]
  have hskip : run_rep rs none I (hooks i) save (some (logs i)) =
      ⟨false, some (logs i), none, none, none, [], []⟩ := by
    simp [run_rep, hcr]
  simp [runBatch, List.getElem?_map, List.getElem?_range hi, hskip]

/-- Witness for C2 at a concrete complete log. -/
theorem c2_complete_skip_witness :
    (runBatch true none 2 (fun _ => natHook) okSave (fun _ => some ["a", "b"]) 1)[0]? =
      some ⟨false, some ["a", "b"], none, none, none, [], []⟩ :=
  c2_complete_skip true 2 1 (fun _ => natHook) okSave (fun _ => ["a", "b"])
    (fun i _ => ⟨rfl, fun l hl => by
      have h2 : some "b" = some l := hl
      cases h2
      decide⟩) 0 (by decide)

/-- C10: a forced-rerun target of exactly 0 is treated identically to no
forced-rerun request at all (every rerun branch is gated on Python
truthiness, and `0` is falsy); in particular a repetition whose log
already holds `iterations` lines is skipped with no backup, no
truncation and no `restore_state` call. -/
theorem c10_rerun_zero (rs : Bool) (I : Nat) (hook : Nat → Except String String)
    (save : Nat → Except String Unit) (log : Option (List String)) :
    run_rep rs (some 0) I hook save log = run_rep rs none I hook save log ∧
    ∀ lines l, lines.length = I → lines.getLast? = some l → lineHasSentinel l = false →
      run_rep rs (some 0) I hook save (some lines) =
        ⟨false, some lines, none, none, none, [], []⟩ := by
  have key : ∀ lg, computeResume rs (some 0) I lg = computeResume rs none I lg := by
    intro lg
    cases lg with
    | none => rfl
    | some lines => simp [computeResume, rerunTruthy]
  constructor
  · simp [run_rep, key]
  · intro lines l hlen hlast hsent
    have hstrip : stripSentinel lines = lines :=
      stripSentinel_eq_self (fun l' hl' => by
        rw [hlast] at hl'; cases hl'; exact hsent)
    have hcr : computeResume rs (some 0) I (some lines) = none := by
      rw [key]; simp [computeResume, hstrip, hlen, rerunTruthy]
    simp [run_rep, hcr]

/-- Witness for C10 at a concrete complete log. -/
theorem c10_rerun_zero_witness :
    run_rep true (some 0) 2 natHook okSave (some ["a", "b"]) =
      ⟨false, some ["a", "b"], none, none, none, [], []⟩ :=
  (c10_rerun_zero true 2 natHook okSave (some ["a", "b"])).2 ["a", "b"] "b" rfl rfl
    (by decide)

/-- C1: with mid-run resumption supported and no forced-rerun, a log of
`M` lines (`M < iterations`, final line not classified as the sentinel)
makes `run_rep` resume at `R = M`: the log is opened in append mode,
`restore_state` is called with `M`, the step hook runs exactly for the
indices `M, ..., iterations - 1`, the first `M` lines are left
unchanged, and for a deterministic hook whose outputs produced those
first `M` lines the final log equals that of a from-scratch run. -/
theorem c1_resumption_exactness (I M : Nat) (hMI : M < I) (lines : List String)
    (hlen : lines.length = M) (l : String) (hlast : lines.getLast? = some l)
    (hsent : lineHasSentinel l = false)
    (hook : Nat → Except String String) (save : Nat → Except String Unit)
    (f : Nat → String) (hh : ∀ n, hook n = .ok (f n)) (hs : ∀ n, save n = .ok ()) :
    run_rep true none I hook save (some lines) =
      ⟨true, some (lines ++ (List.range' M (I - M)).map f), none, some true, some M,
        List.range' M (I - M), []⟩ ∧
    (lines = (List.range M).map f →
      (run_rep true none I hook save (some lines)).log =
        (run_rep true none I hook save none).log) := by
  have hne : lines ≠ [] := by
    intro h; rw [h] at hlast; simp at hlast
  have hM0 : M ≠ 0 := by
    intro h
    exact hne (List.length_eq_zero.mp (hlen.trans h))
  have hbne : (M != 0) = true := by simpa using hM0
  have hstrip : stripSentinel lines = lines :=
    stripSentinel_eq_self (fun l' hl' => by rw [hlast] at hl'; cases hl'; exact hsent)
  have hcr : computeResume true none I (some lines) = some ⟨lines, none, M⟩ := by
    simp [computeResume, hstrip, hlen, Nat.ne_of_lt hMI, rerunTruthy, hM0]
  have hmain : run_rep true none I hook save (some lines) =
      ⟨true, some (lines ++ (List.range' M (I - M)).map f), none, some true, some M,
        List.range' M (I - M), []⟩ := by
    simp [run_rep, hcr, runIters_ok hh hs, hM0, hbne]
  refine ⟨hmain, fun hcontent => ?_⟩
  have hcr0 : computeResume true none I none = some ⟨[], none, 0⟩ := rfl
  rw [hmain]
  simp only [run_rep, hcr0, runIters_ok hh hs]
  have hglue : lines ++ (List.range' M (I - M)).map f = (List.range' 0 I).map f := by
    rw [hcontent, List.range_eq_range', ← List.map_append]
    have h0 : (0 : Nat) + M = M := by omega
    have := range'_glue M 0 (I - M)
    rw [h0] at this
    rw [this]
    have : M + (I - M) = I := by omega
    rw [this]
  simp [hglue]

/-- Witness for C1 at a concrete one-line log. -/
theorem c1_resumption_exactness_witness :
    run_rep true none 3 natHook okSave (some ["a"]) =
      ⟨true, some (["a"] ++ (List.range' 1 2).map Nat.repr), none, some true, some 1,
        List.range' 1 2, []⟩ :=
  (c1_resumption_exactness 3 1 (by decide) ["a"] rfl "a" rfl (by decide) natHook okSave
    Nat.repr (fun _ => rfl) (fun _ => rfl)).1

/-- C4 counterexample: with mid-run resumption supported, no rerun
request, `iterations = 1` and a two-line sentinel-free log, the computed
resume point is `2 > 1 = iterations`, violating the claimed invariant
`R ≤ iterations`; `restore_state` is indeed invoked with 2. -/
theorem c4_resume_bound_cex :
    computeResume true none 1 (some ["a", "b"]) = some ⟨["a", "b"], none, 2⟩ ∧
    ¬ (2 ≤ 1) ∧
    (run_rep true none 1 natHook okSave (some ["a", "b"])).restoreCall = some 2 := by
  refine ⟨by decide, by omega, by decide⟩

/-- C4 (amended): the resume point `R` always satisfies `0 ≤ R`, and
`R ≤ iterations` holds provided the stripped log holds at most
`iterations` lines and any forced-rerun target is at most `iterations`
(a longer log or larger target pushes `R` past `iterations`); for a
never-failing hook the loop then runs exactly the indices in
`[R, iterations)` — empty whenever `R ≥ iterations`. -/
theorem c4_resume_bound_amended (rs : Bool) (rerun : Option Nat) (I : Nat)
    (log : Option (List String)) (r : Resumption)
    (hcr : computeResume rs rerun I log = some r)
    (hlen : ∀ lines, log = some lines → (stripSentinel lines).length ≤ I)
    (ht : ∀ t, rerun = some t → t ≤ I)
    (hook : Nat → Except String String) (save : Nat → Except String Unit)
    (f : Nat → String) (hh : ∀ n, hook n = .ok (f n)) (hs : ∀ n, save n = .ok ()) :
    r.restore ≤ I ∧
    (run_rep rs rerun I hook save log).itCalls =
      List.range' r.restore (I - r.restore) := by
  constructor
  · cases log with
    | none =>
      have : r = ⟨[], none, 0⟩ := by
        have h : some (⟨[], none, 0⟩ : Resumption) = some r := hcr
        exact (Option.some.inj h).symm
      simp [this]
    | some lines =>
      have hls := hlen lines rfl
      simp only [computeResume] at hcr
      split at hcr
      · exact absurd hcr (by simp)
      · split at hcr
        · cases Option.some.inj hcr; simp
        · cases hrr : rerun with
          | some t =>
            rw [hrr] at hcr
            simp only at hcr
            split at hcr
            · split at hcr
              · exact absurd hcr (by simp)
              · cases Option.some.inj hcr
                exact ht t hrr
            · split at hcr
              · cases Option.some.inj hcr; simp
              · cases Option.some.inj hcr; exact hls
          | none =>
            rw [hrr] at hcr
            simp only at hcr
            split at hcr
            · cases Option.some.inj hcr; simp
            · cases Option.some.inj hcr; exact hls
  · simp [run_rep, hcr, runIters_ok hh hs]

/-- Witness for the amended C4 at a concrete partial log. -/
theorem c4_resume_bound_amended_witness :
    (⟨["a"], none, 1⟩ : Resumption).restore ≤ 3 ∧
    (run_rep true none 3 natHook okSave (some ["a"])).itCalls = List.range' 1 2 :=
  c4_resume_bound_amended true none 3 (some ["a"]) ⟨["a"], none, 1⟩ rfl
    (fun lines h => by cases h; decide) (fun t h => nomatch h) natHook okSave
    Nat.repr (fun _ => rfl) (fun _ => rfl)

/-- C3 counterexample: with `restore_supported = False`, a forced-rerun
target of 1 against a two-line log takes no backup at all and restarts
from scratch (the log is deleted and fully rewritten), contrary to the
claim that a backup is always taken and execution resumes at `T`. -/
theorem c3_forced_rerun_cex :
    run_rep false (some 1) 2 natHook okSave (some ["a", "b"]) =
      ⟨true, some ["0", "1"], none, some false, none, [0, 1], []⟩ ∧
    (run_rep false (some 1) 2 natHook okSave (some ["a", "b"])).backup = none := by
  refine ⟨by decide, by decide⟩

/-- C3 (amended): the described forced-rerun behaviour requires
`restore_supported = True`.  Then, for a target `T ≥ 1`: if the stripped
log holds fewer than `T` lines, `run_rep` does nothing (no backup, no
truncation, no execution); if it holds at least `T` lines, the whole
pre-existing log is kept as the backup copy, the log is truncated to its
first `T` lines, `restore_state` is called with `T`, and a never-failing
hook runs indices `[T, iterations)`.  When `restore_supported = False`
the rerun branch is never reached: the log is deleted and the repetition
restarts from 0 with no backup. -/
theorem c3_forced_rerun_amended (I t : Nat) (ht : t ≠ 0) (lines : List String)
    (hook : Nat → Except String String) (save : Nat → Except String Unit)
    (f : Nat → String) (hh : ∀ n, hook n = .ok (f n)) (hs : ∀ n, save n = .ok ()) :
    ((stripSentinel lines).length < t →
      run_rep true (some t) I hook save (some lines) =
        ⟨false, some lines, none, none, none, [], []⟩) ∧
    (t ≤ (stripSentinel lines).length →
      run_rep true (some t) I hook save (some lines) =
        ⟨true, some ((stripSentinel lines).take t ++ (List.range' t (I - t)).map f),
          some lines, some true, some t, List.range' t (I - t), []⟩) ∧
    run_rep false (some t) I hook save (some lines) =
      ⟨true, some ((List.range' 0 I).map f), none, some false, none,
        List.range' 0 I, []⟩ := by
  have htruthy : rerunTruthy (some t) = true := by simpa [rerunTruthy] using ht
  have hbne : (t != 0) = true := by simpa using ht
  refine ⟨?_, ?_, ?_⟩
  · intro hlt
    have hcr : computeResume true (some t) I (some lines) = none := by
      simp [computeResume, htruthy, ht, hlt]
    simp [run_rep, hcr]
  · intro hge
    have hcr : computeResume true (some t) I (some lines) =
        some ⟨(stripSentinel lines).take t, some lines, t⟩ := by
      simp [computeResume, htruthy, ht, Nat.not_lt.mpr hge]
    simp [run_rep, hcr, runIters_ok hh hs, ht, hbne]
  · have hcr : computeResume false (some t) I (some lines) = some ⟨[], none, 0⟩ := by
      simp [computeResume, htruthy]
    simp [run_rep, hcr, runIters_ok hh hs]

/-- Witness for the amended C3: target 1 against a two-line log with
mid-run resumption supported. -/
theorem c3_forced_rerun_amended_witness :
    run_rep true (some 1) 2 natHook okSave (some ["a", "b"]) =
      ⟨true, some ["a", "1"], some ["a", "b"], some true, some 1, [1], []⟩ :=
  (c3_forced_rerun_amended 2 1 (by decide) ["a", "b"] natHook okSave Nat.repr
    (fun _ => rfl) (fun _ => rfl)).2.1 (by decide)

/-- C6: an exception from the step hook at iteration `it` writes exactly
one crash report carrying the exception text, appends the sentinel as
the final log content with no result line for the failed iteration,
calls the hook once for each index up to and including `it` (no retry),
and terminates that repetition's loop; the other repetitions of the
batch are unaffected and reach `iterations` lines normally. -/
theorem c6_crash_containment (rs : Bool) (I it : Nat) (hit : it < I) (msg : String)
    (f : Nat → String) (hook : Nat → Except String String)
    (save : Nat → Except String Unit)
    (hh : ∀ n, n < it → hook n = .ok (f n)) (he : hook it = .error msg)
    (hs : ∀ n, save n = .ok ()) :
    run_rep rs none I hook save none =
      ⟨true, some ((List.range it).map f ++ [sentinelToken]), none, some false, none,
        List.range (it + 1), [msg]⟩ ∧
    ∀ (R j : Nat) (hooks : Nat → Nat → Except String String) (g : Nat → Nat → String),
      (∀ i, i ≠ j → ∀ n, hooks i n = .ok (g i n)) →
      ∀ i, i < R → i ≠ j →
        (runBatch rs none I hooks save (fun _ => none) R)[i]? =
          some ⟨true, some ((List.range I).map (g i)), none, some false, none,
            List.range I, []⟩ := by
  have hcr0 : computeResume rs none I none = some ⟨[], none, 0⟩ := rfl
  constructor
  · have hh' : ∀ n, n < it → hook (0 + n) = .ok (f (0 + n)) := by
      intro n hn; rw [Nat.zero_add]; exact hh n hn
    have he' : hook (0 + it) = .error msg := by rw [Nat.zero_add]; exact he
    have hcrash := runIters_crash hs rs it I 0 hh' he' hit
    simp [run_rep, hcr0, hcrash, List.range_eq_range']
  · intro R j hooks g hg i hiR hij
    have hrep : run_rep rs none I (hooks i) save none =
        ⟨true, some ((List.range I).map (g i)), none, some false, none,
          List.range I, []⟩ := by
      simp [run_rep, hcr0, runIters_ok (hg i hij) hs, List.range_eq_range']
    simp [runBatch, List.getElem?_map, List.getElem?_range hiR, hrep]

/-- Witness for C6: a hook that raises at iteration 1 of 3. -/
theorem c6_crash_containment_witness :
    run_rep true none 3 crashHook1 okSave none =
      ⟨true, some ((List.range 1).map Nat.repr ++ [sentinelToken]), none, some false,
        none, List.range 2, ["boom-trace"]⟩ :=
  (c6_crash_containment true 3 1 (by decide) "boom-trace" Nat.repr crashHook1 okSave
    (by intro n hn; match n, hn with | 0, _ => rfl) rfl (fun _ => rfl)).1

/-- C9 counterexample: a final line that merely contains the token
`exception:error` as a substring — producible by an `iterate` result
such as `{'a': 'exception:errors'}` — is not the lone-token sentinel,
yet both readers classify it as one: `haserror` reports a crash and the
resume computation strips the line.  The claimed "if and only if it is
that lone token" is therefore false on the reader side. -/
theorem c9_sentinel_cex :
    haserror (some ["a:exception:errors"]) = true ∧
    stripSentinel ["a:exception:errors"] = [] ∧
    "a:exception:errors" ≠ sentinelToken := by
  refine ⟨by decide, by decide, by decide⟩

/-- C9 (amended): the writer appends exactly the lone token
`exception:error` and never writes after it, so when present it is the
final line of its log (and, for hook outputs free of the token, the only
line containing it); the readers, however, classify a final line as the
sentinel whenever it *contains* the token as a substring — the lone
token in particular — and strip any such final line before computing
resume state. -/
theorem c9_sentinel_amended (rs : Bool) (I it : Nat) (hit : it < I) (msg : String)
    (f : Nat → String) (hook : Nat → Except String String)
    (save : Nat → Except String Unit)
    (hh : ∀ n, n < it → hook n = .ok (f n)) (he : hook it = .error msg)
    (hs : ∀ n, save n = .ok ()) (hf : ∀ n, lineHasSentinel (f n) = false) :
    (∀ L, (run_rep rs none I hook save none).log = some L →
      L.getLast? = some sentinelToken ∧ ∀ l ∈ L.dropLast, lineHasSentinel l = false) ∧
    lineHasSentinel sentinelToken = true ∧
    (∀ ls, stripSentinel (ls ++ [sentinelToken]) = ls) ∧
    (∀ ls, haserror (some (ls ++ [sentinelToken])) = true) ∧
    (∀ lines, (∀ l, lines.getLast? = some l → lineHasSentinel l = false) →
      stripSentinel lines = lines) := by
  refine ⟨?_, by decide, stripSentinel_concat_tok, ?_, fun _ h => stripSentinel_eq_self h⟩
  · intro L hL
    have hh' : ∀ n, n < it → hook (0 + n) = .ok (f (0 + n)) := by
      intro n hn; rw [Nat.zero_add]; exact hh n hn
    have he' : hook (0 + it) = .error msg := by rw [Nat.zero_add]; exact he
    have hcrash := runIters_crash hs rs it I 0 hh' he' hit
    have hcr0 : computeResume rs none I none = some ⟨[], none, 0⟩ := rfl
    have hlog : (run_rep rs none I hook save none).log =
        some ((List.range it).map f ++ [sentinelToken]) := by
      simp [run_rep, hcr0, hcrash, List.range_eq_range']
    rw [hlog] at hL
    cases Option.some.inj hL
    refine ⟨List.getLast?_concat _, ?_⟩
    intro l hl
    rw [List.dropLast_concat] at hl
    obtain ⟨n, _, rfl⟩ := List.mem_map.mp hl
    exact hf n
  · intro ls
    simp [haserror, List.getLast?_concat]
    decide

/-- Witness for the amended C9 at a concrete crashing run. -/
theorem c9_sentinel_amended_witness :
    (["x", sentinelToken] : List String).getLast? = some sentinelToken :=
  ((c9_sentinel_amended true 2 1 (by decide) "boom" (fun _ => "x") wHook okSave
    (by intro n hn; match n, hn with | 0, _ => rfl) rfl (fun _ => rfl)
    (fun _ => by show lineHasSentinel "x" = false; decide)).1
    ["x", sentinelToken] rfl).1

/-- C5 counterexample: a batch of one valid set followed by one set
lacking `iterations` is rejected — but only after the valid set's
directory and snapshot config have been created, contradicting "no
directory is created, no snapshot config file is written". -/
theorem c5_reserved_keys_cex :
    (do_experiment [psValid, psNoIter]).accepted = false ∧
    (do_experiment [psValid, psNoIter]).work = [] ∧
    (do_experiment [psValid, psNoIter]).dirs = ["./a"] := by
  refine ⟨rfl, rfl, rfl⟩

/-- C5 (amended): if any set in the expanded list lacks one of the four
reserved keys, the whole submission is rejected before any repetition is
executed (the work list stays empty); however, directories and snapshot
config files are created for the sets preceding the first invalid one,
and expansion itself may already have written intermediate snapshots for
swept sets, so side effects are not entirely absent. -/
theorem c5_reserved_keys_amended (batch pl : List ParamSet) (tr : List String)
    (p : ParamSet) (hexp : expand_param_list batch = (tr, .ok pl))
    (hp : p ∈ pl) (hbad : hasRequiredKeys p = false) :
    (do_experiment batch).accepted = false ∧ (do_experiment batch).work = [] := by
  have hloop : (createDirs pl).2 = false := by
    cases hcd : (createDirs pl).2 with
    | false => rfl
    | true =>
      have := createDirs_all hcd p hp
      rw [hbad] at this
      exact absurd this (by simp)
  simp [do_experiment, hexp, hloop]

/-- Witness for the amended C5 on the concrete two-set batch. -/
theorem c5_reserved_keys_amended_witness :
    (do_experiment [psValid, psNoIter]).accepted = false ∧
    (do_experiment [psValid, psNoIter]).work = [] :=
  c5_reserved_keys_amended [psValid, psNoIter] [psValid, psNoIter] [] psNoIter rfl
    (List.Mem.tail _ (List.Mem.head _)) (by decide)

/-- C7 counterexample: a list-mode set whose two swept fields have
lengths 1 and 2 does not fail — `itertools.izip` silently truncates to
the shorter length, so the expansion succeeds and yields exactly one
child set. -/
theorem c7_list_mode_cex :
    (expandSet (psList "e" "." [1] [1, 2])).2.toOption.map List.length = some 1 := by
  rfl

/-- C7 (amended): list-mode expansion zips the swept fields position
by position, truncating to the shortest: equal-length-`k` fields yield
`k` child sets, and unequal lengths yield `min` of the lengths — with no
error in either case.  Sibling sets in the same batch expand normally
and the results are concatenated in order. -/
theorem c7_list_mode_amended (n pa : String) (u v : List Rat) :
    ∃ cs, (expandSet (psList n pa u v)).2 = .ok cs ∧
      cs.length = min u.length v.length ∧
      (u.length = v.length → cs.length = u.length) ∧
      ∀ q tr qs, expand_param_list [q] = (tr, .ok qs) →
        expand_param_list [psList n pa u v, q] =
          ((expandSet (psList n pa u v)).1 ++ tr, .ok (cs ++ qs)) := by
  obtain ⟨cs, hcs, hlen⟩ := buildChildren_num2 (psList n pa u v) n ["a", "b"] u v
  have hkeys : (iterFields (psList n pa u v)).map (fun p => p.1) = ["a", "b"] := rfl
  have hset : expandSet (psList n pa u v) = ([pa ++ "/" ++ n], .ok cs) := by
    rw [expandSet_psList]
    unfold expandWith
    rw [hkeys, hcs]
  refine ⟨cs, by rw [hset], hlen, fun h => by rw [hlen, h, Nat.min_self], ?_⟩
  intro q tr qs hq
  have hstep : expand_param_list [psList n pa u v, q] =
      (match expandSet (psList n pa u v) with
       | (tr1, Except.error e) => (tr1, Except.error e)
       | (tr1, Except.ok cs1) =>
         match expand_param_list [q] with
         | (tr2, Except.error e) => (tr1 ++ tr2, Except.error e)
         | (tr2, Except.ok cs2) => (tr1 ++ tr2, Except.ok (cs1 ++ cs2))) := rfl
  rw [hstep, hset, hq]

/-- Witness for the amended C7: swept lengths 2 and 3 give 2 children
while a sibling singleton set expands to itself. -/
theorem c7_list_mode_amended_witness :
    ∃ cs, (expandSet (psList "e" "." [1, 2] [1, 2, 3])).2 = .ok cs ∧
      cs.length = min 2 3 ∧
      expand_param_list [psList "e" "." [1, 2] [1, 2, 3], psValid] =
        ((expandSet (psList "e" "." [1, 2] [1, 2, 3])).1 ++ [], .ok (cs ++ [psValid])) := by
  obtain ⟨cs, hok, hlen, _, hsib⟩ := c7_list_mode_amended "e" "." [1, 2] [1, 2, 3]
  exact ⟨cs, hok, hlen, hsib psValid [] [psValid] rfl⟩

/-- C8 counterexample: grid-expanding the spec's worked example yields
child sets named `exp/alpha0.10` and `exp/alpha0.20` — `'%f' % 0.1`
gives `0.100000` and `re.sub("0+$", '0', ...)` collapses the trailing
zeros to a single `0`, keeping `0.10` — not the claimed `exp/alpha0.1`
and `exp/alpha0.2`. -/
theorem c8_grid_example_cex :
    (expandSet psC8).2.toOption.map
        (fun cs => cs.map (fun c => getStr (lookupKey c "name"))) =
      some [some "exp/alpha0.10", some "exp/alpha0.20"] ∧
    ("exp/alpha0.10" : String) ≠ "exp/alpha0.1" := by
  refine ⟨by rfl, by decide⟩

/-- C8 (amended): grid expansion of
`{name: exp, path: ., iterations: 3, repetitions: 1, alpha: [0.1, 0.2]}`
yields exactly two concrete sets, named `exp/alpha0.10` and
`exp/alpha0.20`, each carrying `iterations = 3` and `repetitions = 1`
and the respective `alpha` value; each swept numeric value is rendered
as `'%f'` fixed-point text with the maximal run of trailing zeros
collapsed to a single zero (`0.1 ↦ 0.10`, `0.2 ↦ 0.20`). -/
theorem c8_grid_example_amended :
    (expandSet psC8).2.toOption.map List.length = some 2 ∧
    (expandSet psC8).2.toOption.map (fun cs => cs.map (fun c =>
        (getStr (lookupKey c "name"), getNum (lookupKey c "iterations"),
         getNum (lookupKey c "repetitions"), getNum (lookupKey c "alpha")))) =
      some [(some "exp/alpha0.10", some 3, some 1, some (mkRat 1 10)),
        (some "exp/alpha0.20", some 3, some 1, some (mkRat 1 5))] ∧
    (mkRat 1 10 : Rat) = 1 / 10 ∧ (mkRat 1 5 : Rat) = 1 / 5 ∧
    convert_param_to_dirname (.num (mkRat 1 10)) = some "0.10" ∧
    convert_param_to_dirname (.num (mkRat 1 5)) = some "0.20" ∧
    formatFixed6 (mkRat 1 10) = "0.100000" ∧
    collapseTrailingZeros "0.100000" = "0.10" := by
  refine ⟨by rfl, by rfl, by norm_num [mkRat], by norm_num [mkRat], by rfl, by rfl,
    by rfl, by decide⟩
